import Mathlib

/-!
Shallow embedding of the esp-ml307 transport layer (src/esp_http.cc and
src/esp_udp.cc).  External collaborators (esp_http_client, sockets, DNS)
are modelled as environment parameters; the observable calls the code
makes to them are recorded in explicit event traces.
-/

namespace EspMl307

/-- Address family of a resolved candidate (AF_INET / AF_INET6). -/
inductive Family
  | ipv4
  | ipv6
deriving DecidableEq, Repr

/-- Result of `EspHttp::resolve_url`: the returned boolean (`found_ipv6`)
together with whether `getaddrinfo` was reached (`queriedDns`).  The
function performs no socket operation on any path. -/
structure ResolveOut where
  found_ipv6 : Bool
  queriedDns : Bool
deriving DecidableEq, Repr

/-- Index of the first occurrence of a character in a character list
(`strchr`). -/
def findIdx (c : Char) : List Char → Option Nat
  | [] => none
  | x :: xs => if x = c then some 0 else (findIdx c xs).map (· + 1)

/-- Whether `p` is an initial segment of `l`. -/
def startsWith : List Char → List Char → Bool
  | [], _ => true
  | _ :: _, [] => false
  | p :: ps, x :: xs => p = x && startsWith ps xs

/-- Index of the first occurrence of the pattern `pat` in a character
list (`strstr`). -/
def findSubIdx (pat : List Char) : List Char → Option Nat
  | [] => if startsWith pat [] then some 0 else none
  | x :: xs => if startsWith pat (x :: xs) then some 0 else (findSubIdx pat xs).map (· + 1)

/-- The `getaddrinfo` step of `resolve_url`: looks the hostname up in the
DNS environment; on failure returns `false`, otherwise reports whether an
AF_INET6 entry was found. -/
def lookupHost (dns : String → Option (List Family)) (hostname : List Char) : ResolveOut :=
  match dns (String.mk hostname) with
  | none => ⟨false, true⟩
  | some fams => ⟨fams.contains Family.ipv6, true⟩

/-- `EspHttp::resolve_url` (src/esp_http.cc:187-271): extracts the
hostname after the "://" delimiter — bracketed IPv6 literal, else up to
the first `:` or `/`, whichever comes first — rejecting input without
"://", a missing `]`, or a hostname of 256 or more characters, and then
queries DNS for both families, returning whether IPv6 was found. -/
def resolve_url (dns : String → Option (List Family)) (url : String) : ResolveOut :=
  match findSubIdx (String.toList "://") url.toList with
  | none => ⟨false, false⟩
  | some i =>
    match url.toList.drop (i + 3) with
    | '[' :: hostStart =>
      match findIdx ']' hostStart with
      | none => ⟨false, false⟩
      | some hend =>
        if 256 ≤ (hostStart.take hend).length then ⟨false, false⟩
        else lookupHost dns (hostStart.take hend)
    | hostStart =>
      let cIdx := findIdx ':' hostStart
      let pIdx := findIdx '/' hostStart
      let hend :=
        match cIdx, pIdx with
        | none, none => hostStart.length
        | none, some p => p
        | some c, none => c
        | some c, some p => if p < c then p else c
      if 256 ≤ (hostStart.take hend).length then ⟨false, false⟩
      else lookupHost dns (hostStart.take hend)

/-- State of an `EspHttp` object: whether `client_` is non-null, and the
`status_code_`, `content_length_` and `response_body_` members. -/
structure EspHttpState where
  client : Bool
  status_code : Int
  content_length : Int
  response_body : String
deriving DecidableEq, Repr

/-- The `EspHttp` constructor (src/esp_http.cc:14): `client_ = nullptr`,
`status_code_ = 0` (the constructor leaves `content_length_` and
`response_body_` default-initialized; they are taken as 0 and empty). -/
def espHttpNew : EspHttpState := ⟨false, 0, 0, ""⟩

/-- Observable calls `EspHttp::Open` makes to its collaborators. -/
inductive Ev
  | resolveDiag (found : Bool)
  | delayMs (n : Nat)
  | cleanupClient
  | initClient
  | connectAttempt (i : Nat)
  | writeBody (r : Int)
  | fetchHeaders (r : Int)
  | closeCall
deriving DecidableEq, Repr

/-- Environment for one loop iteration of `Open`: whether
`esp_http_client_init` returns a handle and what `esp_http_client_open`
returns (`0` = `ESP_OK`). -/
structure AttemptEnv where
  initOk : Bool
  openResult : Int
deriving DecidableEq, Repr

/-- Outcome of the connect loop in `Open`. -/
inductive ConnectResult
  | initFail
  | ok (attempts : Nat)
  | fail (lastErr : Int)
deriving DecidableEq, Repr

/-- Events emitted at the top of a loop iteration with counter `retry`:
`vTaskDelay(pdMS_TO_TICKS(1000))` when `retry > 0`, then
`esp_http_client_cleanup` when a client handle is held. -/
def preEvents (retry : Nat) (held : Bool) : List Ev :=
  (if 0 < retry then [Ev.delayMs 1000] else []) ++ (if held then [Ev.cleanupClient] else [])

/-- The `while (retry_count < max_connect_retries)` loop of `Open`
(src/esp_http.cc:59-101), as a recursion over the per-iteration
environments: delay when retrying, tear down any held client, init a
fresh one (abort returning false if init fails), attempt
`esp_http_client_open`, break on `ESP_OK`, else loop with the error. -/
def connectSeq : List AttemptEnv → Nat → Bool → Int → ConnectResult × Bool × List Ev
  | [], _, held, lastErr => (ConnectResult.fail lastErr, held, [])
  | a :: rest, retry, held, _ =>
    if a.initOk then
      if a.openResult = 0 then
        (ConnectResult.ok (retry + 1), true,
          preEvents retry held ++ [Ev.initClient, Ev.connectAttempt retry])
      else
        ((connectSeq rest (retry + 1) true a.openResult).1,
         (connectSeq rest (retry + 1) true a.openResult).2.1,
         preEvents retry held ++ [Ev.initClient, Ev.connectAttempt retry]
           ++ (connectSeq rest (retry + 1) true a.openResult).2.2)
    else (ConnectResult.initFail, false, preEvents retry held)

/-- Environment of one `Open` call: the url, the DNS map, the outcome of
each connect-loop iteration, and the results of
`esp_http_client_write` and `esp_http_client_fetch_headers`. -/
structure OpenEnv where
  url : String
  dns : String → Option (List Family)
  attempt : Nat → AttemptEnv
  writeResult : Int
  fetchResult : Int

/-- The connect phase of `Open`: `max_connect_retries = 3` iterations
starting from `retry_count = 0` and `last_err = ESP_OK`. -/
def connectPhase (env : OpenEnv) (held : Bool) : ConnectResult × Bool × List Ev :=
  connectSeq [env.attempt 0, env.attempt 1, env.attempt 2] 0 held 0

/-- `EspHttp::Open` (src/esp_http.cc:24-135): DNS pre-resolution (used
only for a log line), the connect-with-retry loop, then on success the
body write (negative result closes and fails), then header fetch
(non-positive declared length closes and fails, after storing it in
`content_length_`). -/
def EspHttp.Open (s : EspHttpState) (env : OpenEnv) : Bool × EspHttpState × List Ev :=
  let diag := (resolve_url env.dns env.url).found_ipv6
  let c := connectPhase env s.client
  let tr0 := Ev.resolveDiag diag :: c.2.2
  match c.1 with
  | ConnectResult.initFail => (false, { s with client := false }, tr0)
  | ConnectResult.fail _ => (false, { s with client := false }, tr0 ++ [Ev.closeCall])
  | ConnectResult.ok _ =>
    let tr1 := tr0 ++ [Ev.writeBody env.writeResult]
    if env.writeResult < 0 then
      (false, { s with client := false }, tr1 ++ [Ev.closeCall])
    else
      let tr2 := tr1 ++ [Ev.fetchHeaders env.fetchResult]
      if env.fetchResult ≤ 0 then
        (false, { s with client := false, content_length := env.fetchResult },
         tr2 ++ [Ev.closeCall])
      else
        (true, { s with client := true, content_length := env.fetchResult }, tr2)

/-- `EspHttp::Close` (src/esp_http.cc:137-142): cleans up the client
handle when one is held. -/
def EspHttp.Close (s : EspHttpState) : EspHttpState :=
  if s.client then { s with client := false } else s

/-- `EspHttp::~EspHttp` (src/esp_http.cc:16-18): invokes `Close`. -/
def EspHttp.destruct : EspHttpState → EspHttpState := EspHttp.Close

/-- `EspHttp::GetStatusCode` (src/esp_http.cc:144-146): returns the
`status_code_` member. -/
def EspHttp.GetStatusCode (s : EspHttpState) : Int := s.status_code

/-- `EspHttp::GetBodyLength` (src/esp_http.cc:158-160): returns the
`content_length_` member. -/
def EspHttp.GetBodyLength (s : EspHttpState) : Int := s.content_length

/-- Result of the single underlying `esp_http_client_read` call made by
`GetBody`: its integer return value and the bytes it wrote. -/
structure ReadEnv where
  result : Int
  data : String
deriving DecidableEq, Repr

/-- `EspHttp::Read` (src/esp_http.cc:168-171): `-1` when no client is
open, otherwise the underlying read result. -/
def EspHttp.ReadResult (s : EspHttpState) (underlying : Int) : Int :=
  if s.client then underlying else -1

/-- Output of `GetBody`: `result = none` models the `assert` firing (a
fatal precondition failure, not an error return); `requested` is the
byte count passed to `Read`. -/
structure GetBodyOut where
  result : Option String
  state : EspHttpState
  requested : Int
deriving DecidableEq, Repr

/-- `EspHttp::GetBody` (src/esp_http.cc:162-166): resizes
`response_body_` to `content_length_`, reads exactly `content_length_`
bytes into it via `Read`, and asserts the read returned exactly that
count.  On success the buffer holds exactly the bytes the read wrote. -/
def EspHttp.GetBody (s : EspHttpState) (r : ReadEnv) : GetBodyOut :=
  let n := s.content_length
  let resized := String.mk
    (s.response_body.toList.take n.toNat
      ++ List.replicate (n.toNat - s.response_body.length) (Char.ofNat 0))
  if EspHttp.ReadResult s r.result = n then
    ⟨some r.data, { s with response_body := r.data }, n⟩
  else
    ⟨none, { s with response_body := resized }, n⟩

/-- `EspHttp::HttpEventHandler` (src/esp_http.cc:173-185), case
`HTTP_EVENT_ON_DATA`: appends the pushed frame to `response_body_` when
its length is positive. -/
def EspHttp.HttpEventHandler (s : EspHttpState) (data : String) : EspHttpState :=
  if 0 < data.length then { s with response_body := s.response_body ++ data } else s

/-- State of an `EspUdp` object: the socket descriptor (`-1` = none),
the `connected_` flag, whether `receive_thread_` is joinable (i.e. the
background receive loop may still run), and the messages delivered to
the callback so far. -/
structure EspUdpState where
  udp_fd : Int
  connected : Bool
  joinable : Bool
  delivered : List String
deriving DecidableEq, Repr

/-- `EspUdp::Disconnect` (src/esp_udp.cc:84-93): closes the socket when
one is open, clears `connected_`, and joins the receive thread when it
is joinable (returning only after the loop has terminated). -/
def EspUdp.Disconnect (s : EspUdpState) : EspUdpState :=
  let s1 := if s.udp_fd ≠ -1 then { s with udp_fd := -1 } else s
  let s2 := { s1 with connected := false }
  if s2.joinable then { s2 with joinable := false } else s2

/-- `EspUdp::~EspUdp` (src/esp_udp.cc:16-18): invokes `Disconnect`. -/
def EspUdp.destruct : EspUdpState → EspUdpState := EspUdp.Disconnect

/-- One delivery step of the background receive loop: the callback is
invoked only while the receive loop is still running (thread joinable);
after the loop has been joined the step is a no-op. -/
def deliverStep (s : EspUdpState) (msg : String) : EspUdpState :=
  if s.joinable then { s with delivered := s.delivered ++ [msg] } else s

/-- `EspUdp::ReceiveTask` (src/esp_udp.cc:104-117) over the stream of
`recv` results (return value, payload): breaks on the first non-positive
result, otherwise delivers the payload to the callback and loops.
Returns the list of callback invocations in order. -/
def ReceiveTask : List (Int × String) → List String
  | [] => []
  | (ret, d) :: rest => if ret ≤ 0 then [] else d :: ReceiveTask rest

/-- Observable socket operations of `EspUdp::Send`. -/
inductive UEv
  | sockSend
deriving DecidableEq, Repr

/-- `EspUdp::Send` (src/esp_udp.cc:95-102): unconditionally calls
`send` on `udp_fd_`; a non-positive result clears `connected_`.  The
trace records the socket write. -/
def EspUdp.Send (s : EspUdpState) (sendResult : Int) : Int × EspUdpState × List UEv :=
  (sendResult,
   if sendResult ≤ 0 then { s with connected := false } else s,
   [UEv.sockSend])

/-- One `getaddrinfo` candidate in `EspUdp::Connect`, with the outcomes
of the `socket` and `connect` calls on it. -/
structure Candidate where
  family : Family
  socketOk : Bool
  connectOk : Bool
deriving DecidableEq, Repr

/-- The candidate loop of `EspUdp::Connect` (src/esp_udp.cc:38-58):
walks the `getaddrinfo` result list in order; a failed `socket` call
skips to the next candidate, a successful `connect` stops the loop, a
failed `connect` closes the socket and moves on.  Returns the family
connected to (if any) and the families on which a `connect` call was
attempted, in order. -/
def udpConnectLoop : List Candidate → Option Family × List Family
  | [] => (none, [])
  | c :: rest =>
    if c.socketOk then
      if c.connectOk then (some c.family, [c.family])
      else ((udpConnectLoop rest).1, c.family :: (udpConnectLoop rest).2)
    else udpConnectLoop rest

/-- Whether every IPv6 entry precedes every IPv4 entry. -/
def ipv6BeforeIpv4 : List Family → Bool
  | [] => true
  | Family.ipv6 :: rest => ipv6BeforeIpv4 rest
  | Family.ipv4 :: rest => rest.all fun f =>
      match f with
      | Family.ipv4 => true
      | Family.ipv6 => false

/-- Whether an event is a connect attempt. -/
def isAttempt : Ev → Bool
  | Ev.connectAttempt _ => true
  | _ => false

/-- Number of connect attempts in a trace. -/
def countAttempts (tr : List Ev) : Nat := tr.countP fun e => isAttempt e

/-- Delay discipline of a trace: no delay occurs before the first
connect attempt, every delay is exactly 1000 ms, and between two
consecutive connect attempts exactly one delay occurs.  `started` is
true once an attempt has been seen; `c` counts delays since then. -/
def delayDisc : List Ev → Bool → Nat → Bool
  | [], _, _ => true
  | Ev.delayMs n :: rest, started, c => started && n == 1000 && delayDisc rest started (c + 1)
  | Ev.connectAttempt _ :: rest, started, c => (!started || c == 1) && delayDisc rest true 0
  | _ :: rest, started, c => delayDisc rest started c

/-- Every connect attempt in the trace is immediately preceded by a
client init. -/
def initThenAttempt : List Ev → Bool
  | [] => true
  | Ev.initClient :: Ev.connectAttempt _ :: rest => initThenAttempt rest
  | Ev.connectAttempt _ :: _ => false
  | _ :: rest => initThenAttempt rest

/-- Teardown discipline: the client is only initialized when no handle
is held (a held handle is first cleaned up), and cleanup only happens on
a held handle.  `held` is whether a handle is held entering the trace. -/
def cleanupDisc : List Ev → Bool → Bool
  | [], _ => true
  | Ev.initClient :: rest, held => !held && cleanupDisc rest true
  | Ev.cleanupClient :: rest, held => held && cleanupDisc rest false
  | _ :: rest, held => cleanupDisc rest held

/-! ### Helper lemmas -/

/-- `Disconnect` always ends in the fully-released state. -/
lemma disconnect_eq (s : EspUdpState) :
    EspUdp.Disconnect s = ⟨-1, false, false, s.delivered⟩ := by
  rcases s with ⟨fd, c, j, d⟩
  unfold EspUdp.Disconnect
  cases j <;> by_cases h1 : fd = -1 <;> simp [h1]

/-- Receive results arriving after the point where the socket is closed
(all non-positive from index `k` on) contribute no callback delivery. -/
lemma receiveTask_postclose (recvs : List (Int × String)) (k : Nat)
    (h : ∀ p ∈ recvs.drop k, p.1 ≤ 0) :
    ReceiveTask recvs = ReceiveTask (recvs.take k) := by
  induction recvs generalizing k with
  | nil => simp
  | cons p rest ih =>
    rcases p with ⟨ret, d⟩
    cases k with
    | zero =>
      have hp : ret ≤ 0 := by
        have := h (ret, d) (by simp)
        simpa using this
      simp [ReceiveTask, hp]
    | succ k =>
      simp only [List.drop_succ_cons] at h
      by_cases hr : ret ≤ 0
      · simp [ReceiveTask, hr]
      · simp only [List.take_succ_cons, ReceiveTask, if_neg hr]
        exact congrArg _ (ih k h)

/-- The connect loop never calls `esp_http_client_fetch_headers`. -/
lemma connectSeq_no_fetch (atts : List AttemptEnv) (retry : Nat) (held : Bool)
    (le : Int) (r : Int) :
    Ev.fetchHeaders r ∉ (connectSeq atts retry held le).2.2 := by
  induction atts generalizing retry held le with
  | nil => simp [connectSeq]
  | cons a rest ih =>
    by_cases hi : a.initOk
    · by_cases ho : a.openResult = 0
      · simp only [connectSeq, hi, ho, if_true]
        simp [preEvents]
      · simp only [connectSeq, hi, ho, if_true, if_false]
        simp [preEvents, ih]
    · simp only [connectSeq, hi, if_false]
      simp [preEvents]

/-! ### Concrete fixtures -/

/-- A small DNS environment: `example.com` resolves in both families. -/
def dnsW : String → Option (List Family) :=
  fun h => if h = "example.com" then some [Family.ipv4, Family.ipv6] else none

/-- Environment where the first connect attempt, the body write and the
header fetch all succeed. -/
def envOkW : OpenEnv := ⟨"https://example.com/a", dnsW, fun _ => ⟨true, 0⟩, 0, 5⟩

/-- Environment with a malformed URL and failing connect attempts. -/
def envBadW : OpenEnv := ⟨"badurl", dnsW, fun _ => ⟨true, 1⟩, 0, 5⟩

/-- Environment where connect succeeds but the body write returns -1. -/
def envW9 : OpenEnv := ⟨"https://example.com/a", dnsW, fun _ => ⟨true, 0⟩, -1, 5⟩

/-- Environment where every connect attempt fails with error 1. -/
def envFailW : OpenEnv := ⟨"https://example.com/a", dnsW, fun _ => ⟨true, 1⟩, 0, 5⟩

/-- A connected datagram session with a running receiver. -/
def sConnW : EspUdpState := ⟨5, true, true, []⟩

/-- A connected datagram session used for the Disconnect claim. -/
def sW4 : EspUdpState := ⟨7, true, true, []⟩

/-- Receive results: one datagram, then the socket reports closed. -/
def recvsW4 : List (Int × String) := [(3, "a"), (-1, "")]

/-- An open exchange with declared length 1 and empty accumulator. -/
def s7W : EspHttpState := ⟨true, 0, 1, ""⟩

/-- An open exchange with declared length 4. -/
def sW6 : EspHttpState := ⟨true, 0, 4, ""⟩

/-- A read that returns the full 4 declared bytes. -/
def rW6 : ReadEnv := ⟨4, "abcd"⟩

/-- Candidates where an IPv4 candidate precedes an IPv6 one and only the
IPv6 one connects. -/
def candsW : List Candidate := [⟨Family.ipv4, true, false⟩, ⟨Family.ipv6, true, true⟩]

/-! ### Claim theorems -/

/-- Claim C2: after a successful `Open`, `GetStatusCode` is claimed to
return the response's status code.  In the code `status_code_` is set to
0 by the constructor and never assigned again, so `GetStatusCode`
returns 0 after a successful exchange regardless of the response, and
`Open` leaves `status_code_` untouched in general. -/
theorem getStatusCode_zero_after_successful_open :
    (EspHttp.Open espHttpNew envOkW).1 = true ∧
    EspHttp.GetStatusCode (EspHttp.Open espHttpNew envOkW).2.1 = 0 ∧
    (∀ s env, EspHttp.GetStatusCode (EspHttp.Open s env).2.1 =
      EspHttp.GetStatusCode s) := by
  refine ⟨by decide, by decide, ?_⟩
  intro s env
  rcases hc : (connectPhase env s.client).1 with _ | k | e
  all_goals simp only [EspHttp.Open, EspHttp.GetStatusCode, hc]
  all_goals split_ifs <;> rfl

/-- Claim C5 (corrected): a `Send` whose underlying write returns a
non-positive result marks the session disconnected, the return value is
passed through, and the socket write happens unconditionally — `Send`
never short-circuits on the `connected_` flag. -/
theorem send_nonpositive_marks_disconnected (s : EspUdpState) (r : Int) :
    (EspUdp.Send s r).1 = r ∧
    (EspUdp.Send s r).2.1.connected = (if r ≤ 0 then false else s.connected) ∧
    (EspUdp.Send s r).2.1.udp_fd = s.udp_fd ∧
    (EspUdp.Send s r).2.2 = [UEv.sockSend] := by
  refine ⟨rfl, ?_, ?_, rfl⟩ <;>
    · simp only [EspUdp.Send]
      split_ifs <;> rfl

/-- Claim C5 counterexample: after a send marks the session
disconnected, a subsequent `Send` still performs a socket write — it
does not short-circuit. -/
theorem send_after_disconnect_writes_cex :
    (EspUdp.Send sConnW (-1)).2.1.connected = false ∧
    UEv.sockSend ∈ (EspUdp.Send (EspUdp.Send sConnW (-1)).2.1 3).2.2 := by
  decide

/-- Claim C7 (corrected): pushed data frames are appended to the
internal accumulator, but `GetBody` does not reconcile them with
pull-mode reads: its result is either a fatal assertion or exactly the
bytes the pull-mode `Read` delivered, which also overwrite the
accumulator. -/
theorem push_appends_pull_overwrites (s : EspHttpState) (d : String) (r : ReadEnv) :
    (EspHttp.HttpEventHandler s d).response_body =
      (if 0 < d.length then s.response_body ++ d else s.response_body) ∧
    ((EspHttp.GetBody s r).result = none ∨
      ((EspHttp.GetBody s r).result = some r.data ∧
        (EspHttp.GetBody s r).state.response_body = r.data)) := by
  constructor
  · simp only [EspHttp.HttpEventHandler]
    split_ifs <;> rfl
  · by_cases h : EspHttp.ReadResult s r.result = s.content_length
    · right
      simp [EspHttp.GetBody, h]
    · left
      simp [EspHttp.GetBody, h]

/-- Claim C7 counterexample: the byte "x" arrives via a push
notification and sits in the accumulator, yet `GetBody` returns exactly
the pull-read bytes "y", which do not contain it. -/
theorem push_data_overwritten_cex :
    (EspHttp.HttpEventHandler s7W "x").response_body = "x" ∧
    (EspHttp.GetBody (EspHttp.HttpEventHandler s7W "x") ⟨1, "y"⟩).result = some "y" ∧
    ¬ ('x' ∈ String.toList "y") := by
  decide

/-- Claim C8 (corrected): the datagram connect loop attempts candidates
in exactly the resolver-returned order — the attempted-family sequence
is a subsequence of the candidate families as given, with no IPv6-first
reordering. -/
theorem udp_attempt_order_follows_resolver (cands : List Candidate) :
    List.Sublist (udpConnectLoop cands).2 (cands.map Candidate.family) := by
  induction cands with
  | nil => simp [udpConnectLoop]
  | cons c rest ih =>
    by_cases hs : c.socketOk
    · by_cases hc : c.connectOk
      · simp only [udpConnectLoop, hs, hc, if_true, List.map_cons]
        exact List.Sublist.cons₂ _ (List.nil_sublist _)
      · simp only [udpConnectLoop, hs, hc, if_true, if_false, List.map_cons]
        exact List.Sublist.cons₂ _ ih
    · simp only [udpConnectLoop, hs, if_false, List.map_cons]
      exact List.Sublist.cons _ ih

/-- Claim C8 counterexample: with candidates resolved in both address
families but IPv4 listed first, the connect attempts are made IPv4
first — the order is not IPv6-before-IPv4. -/
theorem ipv4_attempted_before_ipv6_cex :
    Family.ipv6 ∈ candsW.map Candidate.family ∧
    Family.ipv4 ∈ candsW.map Candidate.family ∧
    (udpConnectLoop candsW).2 = [Family.ipv4, Family.ipv6] ∧
    ipv6BeforeIpv4 (udpConnectLoop candsW).2 = false := by
  decide

/-- Claim C10: the destructors delegate to `Close` / `Disconnect`, so
after destruction no client handle or socket descriptor is held, the
connected flag is cleared, and the background receiver is joined. -/
theorem destructors_release_resources (s : EspHttpState) (u : EspUdpState) :
    EspHttp.destruct s = EspHttp.Close s ∧
    (EspHttp.destruct s).client = false ∧
    EspUdp.destruct u = EspUdp.Disconnect u ∧
    (EspUdp.destruct u).udp_fd = -1 ∧
    (EspUdp.destruct u).connected = false ∧
    (EspUdp.destruct u).joinable = false := by
  refine ⟨rfl, ?_, rfl, ?_, ?_, ?_⟩
  · simp only [EspHttp.destruct, EspHttp.Close]
    split_ifs with h <;> simp_all
  · simp [EspUdp.destruct, disconnect_eq]
  · simp [EspUdp.destruct, disconnect_eq]
  · simp [EspUdp.destruct, disconnect_eq]

/-- Claim C4: `Disconnect` closes the socket, clears the connected
flag, joins the background receive loop (so it has fully terminated
when `Disconnect` returns and no callback fires afterwards — a delivery
step after `Disconnect` is a no-op), it is idempotent, and receive
results arriving after the socket is closed (non-positive from some
index on) contribute no callback delivery. -/
theorem disconnect_joins_and_idempotent (s : EspUdpState) :
    (EspUdp.Disconnect s).udp_fd = -1 ∧
    (EspUdp.Disconnect s).connected = false ∧
    (EspUdp.Disconnect s).joinable = false ∧
    EspUdp.Disconnect (EspUdp.Disconnect s) = EspUdp.Disconnect s ∧
    (∀ msg, deliverStep (EspUdp.Disconnect s) msg = EspUdp.Disconnect s) ∧
    (∀ recvs k, (∀ p ∈ recvs.drop k, p.1 ≤ 0) →
      ReceiveTask recvs = ReceiveTask (recvs.take k)) := by
  refine ⟨?_, ?_, ?_, ?_, ?_, ?_⟩
  · rw [disconnect_eq]
  · rw [disconnect_eq]
  · rw [disconnect_eq]
  · rw [disconnect_eq, disconnect_eq]
  · intro msg
    simp [disconnect_eq, deliverStep]
  · exact fun recvs k h => receiveTask_postclose recvs k h

/-- Claim C4 witness: the guarantees of `disconnect_joins_and_idempotent`
at a concrete connected session and a concrete receive stream whose
entries from index 1 on are non-positive. -/
theorem disconnect_joins_and_idempotent_witness :
    (EspUdp.Disconnect sW4).udp_fd = -1 ∧
    EspUdp.Disconnect (EspUdp.Disconnect sW4) = EspUdp.Disconnect sW4 ∧
    deliverStep (EspUdp.Disconnect sW4) "m" = EspUdp.Disconnect sW4 ∧
    ReceiveTask recvsW4 = ReceiveTask (recvsW4.take 1) := by
  have h := disconnect_joins_and_idempotent sW4
  exact ⟨h.1, h.2.2.2.1, h.2.2.2.2.1 "m", h.2.2.2.2.2 recvsW4 1 (by decide)⟩

/-- Claim C6: `GetBody` asks `Read` for exactly `GetBodyLength()`
bytes; when the read delivers exactly that many it returns them as the
whole body, and when fewer bytes come back the assertion fires (modelled
as `none`, a fatal precondition failure rather than an error value). -/
theorem getBody_reads_declared_length_or_fatal (s : EspHttpState) (r : ReadEnv)
    (hpos : 0 < s.content_length) :
    (EspHttp.GetBody s r).requested = EspHttp.GetBodyLength s ∧
    (s.client = true → r.result = s.content_length →
      (EspHttp.GetBody s r).result = some r.data) ∧
    (r.result < s.content_length → (EspHttp.GetBody s r).result = none) := by
  refine ⟨?_, ?_, ?_⟩
  · simp only [EspHttp.GetBody, EspHttp.GetBodyLength]
    split_ifs <;> rfl
  · intro hc hr
    simp [EspHttp.GetBody, EspHttp.ReadResult, hc, hr]
  · intro hlt
    by_cases hc : s.client = true
    · have hne : ¬ EspHttp.ReadResult s r.result = s.content_length := by
        simp only [EspHttp.ReadResult, hc, if_true]
        omega
      simp [EspHttp.GetBody, hne]
    · have hne : ¬ EspHttp.ReadResult s r.result = s.content_length := by
        simp only [EspHttp.ReadResult, hc, if_false]
        omega
      simp [EspHttp.GetBody, hne]

/-- Claim C6 witness: on an open exchange with declared length 4, a
full 4-byte read materializes the body and the requested size is the
declared length. -/
theorem getBody_reads_declared_length_or_fatal_witness :
    0 < sW6.content_length ∧
    (EspHttp.GetBody sW6 rW6).requested = EspHttp.GetBodyLength sW6 ∧
    (EspHttp.GetBody sW6 rW6).result = some "abcd" := by
  have h := getBody_reads_declared_length_or_fatal sW6 rW6 (by decide)
  exact ⟨by decide, h.1, h.2.1 rfl rfl⟩

/-- Claim C9: when the connect phase has succeeded and the body write
returns a negative result, `Open` returns false, the connection is
closed (no client handle held), and no header fetch is attempted. -/
theorem open_write_failure_no_header_fetch (s : EspHttpState) (env : OpenEnv)
    (k : Nat) (hconn : (connectPhase env s.client).1 = ConnectResult.ok k)
    (hw : env.writeResult < 0) :
    (EspHttp.Open s env).1 = false ∧
    (EspHttp.Open s env).2.1.client = false ∧
    ∀ r, Ev.fetchHeaders r ∉ (EspHttp.Open s env).2.2 := by
  refine ⟨?_, ?_, ?_⟩
  · simp [EspHttp.Open, hconn, hw]
  · simp [EspHttp.Open, hconn, hw]
  · intro r
    have hno := connectSeq_no_fetch [env.attempt 0, env.attempt 1, env.attempt 2]
      0 s.client 0 r
    simp only [connectPhase] at hconn ⊢
    simp [EspHttp.Open, connectPhase, hconn, hw, hno]

/-- Claim C9 witness: with a succeeding connect phase and a body write
returning -1, `Open` fails, closes, and never emits a header fetch. -/
theorem open_write_failure_no_header_fetch_witness :
    (connectPhase envW9 espHttpNew.client).1 = ConnectResult.ok 1 ∧
    envW9.writeResult < 0 ∧
    (EspHttp.Open espHttpNew envW9).1 = false ∧
    (EspHttp.Open espHttpNew envW9).2.1.client = false ∧
    Ev.fetchHeaders 5 ∉ (EspHttp.Open espHttpNew envW9).2.2 := by
  have h := open_write_failure_no_header_fetch espHttpNew envW9 1 (by decide) (by decide)
  exact ⟨by decide, by decide, h.1, h.2.1, h.2.2 5⟩

/-- Claim C3 (corrected): for a URL without the "://" delimiter,
`resolve_url` fails (returns false) without ever reaching the DNS query
— and a fortiori without creating any socket — but `Open` uses the
resolution result only as a diagnostic and still proceeds to a connect
attempt for such a URL. -/
theorem malformed_url_resolution_diag (s : EspHttpState) (env : OpenEnv)
    (hmal : findSubIdx (String.toList "://") env.url.toList = none)
    (hinit0 : (env.attempt 0).initOk = true) :
    (resolve_url env.dns env.url).found_ipv6 = false ∧
    (resolve_url env.dns env.url).queriedDns = false ∧
    Ev.connectAttempt 0 ∈ (EspHttp.Open s env).2.2 := by
  have hres : resolve_url env.dns env.url = ⟨false, false⟩ := by
    unfold resolve_url
    rw [hmal]
  refine ⟨by rw [hres], by rw [hres], ?_⟩
  have hmem : Ev.connectAttempt 0 ∈ (connectPhase env s.client).2.2 := by
    simp only [connectPhase, connectSeq, hinit0, if_true]
    split_ifs <;> simp [preEvents]
  rcases hc : (connectPhase env s.client).1 with _ | k | e
  · simp [EspHttp.Open, hc, hmem]
  · simp only [EspHttp.Open, hc]
    split_ifs <;> simp [hmem]
  · simp [EspHttp.Open, hc, hmem]

/-- Claim C3 witness: the guarantees of `malformed_url_resolution_diag`
at the concrete malformed URL "badurl". -/
theorem malformed_url_resolution_diag_witness :
    findSubIdx (String.toList "://") envBadW.url.toList = none ∧
    (envBadW.attempt 0).initOk = true ∧
    (resolve_url envBadW.dns envBadW.url).found_ipv6 = false ∧
    (resolve_url envBadW.dns envBadW.url).queriedDns = false ∧
    Ev.connectAttempt 0 ∈ (EspHttp.Open espHttpNew envBadW).2.2 := by
  have h := malformed_url_resolution_diag espHttpNew envBadW (by decide) (by decide)
  exact ⟨by decide, by decide, h.1, h.2.1, h.2.2⟩

/-- Claim C3 counterexample: for the malformed URL "badurl" (no "://"),
resolution fails, yet `Open` still proceeds to a connect attempt —
refuting the claim that it does not. -/
theorem malformed_url_still_connects_cex :
    (resolve_url envBadW.dns envBadW.url).found_ipv6 = false ∧
    (resolve_url envBadW.dns envBadW.url).queriedDns = false ∧
    Ev.connectAttempt 0 ∈ (EspHttp.Open espHttpNew envBadW).2.2 ∧
    countAttempts (EspHttp.Open espHttpNew envBadW).2.2 = 3 := by
  decide

/-- Claim C1: the connect phase of `Open` (with client handles
initializing successfully) makes at most 3 connect attempts, suspends
for exactly 1000 ms between consecutive attempts and never before the
first, never attempts again after a successful attempt, recreates the
client immediately before each attempt, and tears a held client down
before each recreation; a successful phase ends on the first succeeding
attempt. -/
theorem open_connect_phase_bounded_retry (env : OpenEnv) (held : Bool)
    (hinit : ∀ i, (env.attempt i).initOk = true) :
    countAttempts (connectPhase env held).2.2 ≤ 3 ∧
    delayDisc (connectPhase env held).2.2 false 0 = true ∧
    (∀ j, j + 1 < countAttempts (connectPhase env held).2.2 →
      (env.attempt j).openResult ≠ 0) ∧
    initThenAttempt (connectPhase env held).2.2 = true ∧
    cleanupDisc (connectPhase env held).2.2 held = true ∧
    (∀ k, (connectPhase env held).1 = ConnectResult.ok k →
      (env.attempt (k - 1)).openResult = 0 ∧
      countAttempts (connectPhase env held).2.2 = k) := by
  cases held with
  | false =>
    by_cases h0 : (env.attempt 0).openResult = 0
    · have he1 : (connectPhase env false).1 = ConnectResult.ok 1 := by
        simp [connectPhase, connectSeq, preEvents, hinit, h0]
      have he2 : (connectPhase env false).2.2 =
          [Ev.initClient, Ev.connectAttempt 0] := by
        simp [connectPhase, connectSeq, preEvents, hinit, h0]
      rw [he1, he2]
      refine ⟨by decide, by decide, ?_, by decide, by decide, ?_⟩
      · intro j hj
        have hj1 : j + 1 < 1 := hj
        exact absurd hj1 (by omega)
      · intro k hk
        injection hk with hke
        subst hke
        exact ⟨h0, by decide⟩
    · by_cases h1 : (env.attempt 1).openResult = 0
      · have he1 : (connectPhase env false).1 = ConnectResult.ok 2 := by
          simp [connectPhase, connectSeq, preEvents, hinit, h0, h1]
        have he2 : (connectPhase env false).2.2 =
            [Ev.initClient, Ev.connectAttempt 0, Ev.delayMs 1000, Ev.cleanupClient,
           Ev.initClient, Ev.connectAttempt 1] := by
          simp [connectPhase, connectSeq, preEvents, hinit, h0, h1]
        rw [he1, he2]
        refine ⟨by decide, by decide, ?_, by decide, by decide, ?_⟩
        · intro j hj
          have hj1 : j + 1 < 2 := hj
          have hj0 : j = 0 := by omega
          subst hj0
          exact h0
        · intro k hk
          injection hk with hke
          subst hke
          exact ⟨h1, by decide⟩
      · by_cases h2 : (env.attempt 2).openResult = 0
        · have he1 : (connectPhase env false).1 = ConnectResult.ok 3 := by
            simp [connectPhase, connectSeq, preEvents, hinit, h0, h1, h2]
          have he2 : (connectPhase env false).2.2 =
              [Ev.initClient, Ev.connectAttempt 0, Ev.delayMs 1000, Ev.cleanupClient,
           Ev.initClient, Ev.connectAttempt 1, Ev.delayMs 1000, Ev.cleanupClient,
           Ev.initClient, Ev.connectAttempt 2] := by
            simp [connectPhase, connectSeq, preEvents, hinit, h0, h1, h2]
          rw [he1, he2]
          refine ⟨by decide, by decide, ?_, by decide, by decide, ?_⟩
          · intro j hj
            have hj1 : j + 1 < 3 := hj
            have hj2 : j ≤ 1 := by omega
            interval_cases j
            · exact h0
            · exact h1
          · intro k hk
            injection hk with hke
            subst hke
            exact ⟨h2, by decide⟩
        · have he1 : (connectPhase env false).1 = ConnectResult.fail (env.attempt 2).openResult := by
            simp [connectPhase, connectSeq, preEvents, hinit, h0, h1, h2]
          have he2 : (connectPhase env false).2.2 =
              [Ev.initClient, Ev.connectAttempt 0, Ev.delayMs 1000, Ev.cleanupClient,
           Ev.initClient, Ev.connectAttempt 1, Ev.delayMs 1000, Ev.cleanupClient,
           Ev.initClient, Ev.connectAttempt 2] := by
            simp [connectPhase, connectSeq, preEvents, hinit, h0, h1, h2]
          rw [he1, he2]
          refine ⟨by decide, by decide, ?_, by decide, by decide, ?_⟩
          · intro j hj
            have hj1 : j + 1 < 3 := hj
            have hj2 : j ≤ 1 := by omega
            interval_cases j
            · exact h0
            · exact h1
          · intro k hk
            exact absurd hk (by simp)
  | true =>
    by_cases h0 : (env.attempt 0).openResult = 0
    · have he1 : (connectPhase env true).1 = ConnectResult.ok 1 := by
        simp [connectPhase, connectSeq, preEvents, hinit, h0]
      have he2 : (connectPhase env true).2.2 =
          [Ev.cleanupClient, Ev.initClient, Ev.connectAttempt 0] := by
        simp [connectPhase, connectSeq, preEvents, hinit, h0]
      rw [he1, he2]
      refine ⟨by decide, by decide, ?_, by decide, by decide, ?_⟩
      · intro j hj
        have hj1 : j + 1 < 1 := hj
        exact absurd hj1 (by omega)
      · intro k hk
        injection hk with hke
        subst hke
        exact ⟨h0, by decide⟩
    · by_cases h1 : (env.attempt 1).openResult = 0
      · have he1 : (connectPhase env true).1 = ConnectResult.ok 2 := by
          simp [connectPhase, connectSeq, preEvents, hinit, h0, h1]
        have he2 : (connectPhase env true).2.2 =
            [Ev.cleanupClient, Ev.initClient, Ev.connectAttempt 0, Ev.delayMs 1000, Ev.cleanupClient,
           Ev.initClient, Ev.connectAttempt 1] := by
          simp [connectPhase, connectSeq, preEvents, hinit, h0, h1]
        rw [he1, he2]
        refine ⟨by decide, by decide, ?_, by decide, by decide, ?_⟩
        · intro j hj
          have hj1 : j + 1 < 2 := hj
          have hj0 : j = 0 := by omega
          subst hj0
          exact h0
        · intro k hk
          injection hk with hke
          subst hke
          exact ⟨h1, by decide⟩
      · by_cases h2 : (env.attempt 2).openResult = 0
        · have he1 : (connectPhase env true).1 = ConnectResult.ok 3 := by
            simp [connectPhase, connectSeq, preEvents, hinit, h0, h1, h2]
          have he2 : (connectPhase env true).2.2 =
              [Ev.cleanupClient, Ev.initClient, Ev.connectAttempt 0, Ev.delayMs 1000, Ev.cleanupClient,
           Ev.initClient, Ev.connectAttempt 1, Ev.delayMs 1000, Ev.cleanupClient,
           Ev.initClient, Ev.connectAttempt 2] := by
            simp [connectPhase, connectSeq, preEvents, hinit, h0, h1, h2]
          rw [he1, he2]
          refine ⟨by decide, by decide, ?_, by decide, by decide, ?_⟩
          · intro j hj
            have hj1 : j + 1 < 3 := hj
            have hj2 : j ≤ 1 := by omega
            interval_cases j
            · exact h0
            · exact h1
          · intro k hk
            injection hk with hke
            subst hke
            exact ⟨h2, by decide⟩
        · have he1 : (connectPhase env true).1 = ConnectResult.fail (env.attempt 2).openResult := by
            simp [connectPhase, connectSeq, preEvents, hinit, h0, h1, h2]
          have he2 : (connectPhase env true).2.2 =
              [Ev.cleanupClient, Ev.initClient, Ev.connectAttempt 0, Ev.delayMs 1000, Ev.cleanupClient,
           Ev.initClient, Ev.connectAttempt 1, Ev.delayMs 1000, Ev.cleanupClient,
           Ev.initClient, Ev.connectAttempt 2] := by
            simp [connectPhase, connectSeq, preEvents, hinit, h0, h1, h2]
          rw [he1, he2]
          refine ⟨by decide, by decide, ?_, by decide, by decide, ?_⟩
          · intro j hj
            have hj1 : j + 1 < 3 := hj
            have hj2 : j ≤ 1 := by omega
            interval_cases j
            · exact h0
            · exact h1
          · intro k hk
            exact absurd hk (by simp)

/-- Claim C1 witness: the retry-phase guarantees at a concrete
environment whose three attempts all fail, starting with no held
client. -/
theorem open_connect_phase_bounded_retry_witness :
    (envFailW.attempt 0).initOk = true ∧
    countAttempts (connectPhase envFailW false).2.2 ≤ 3 ∧
    delayDisc (connectPhase envFailW false).2.2 false 0 = true ∧
    initThenAttempt (connectPhase envFailW false).2.2 = true ∧
    cleanupDisc (connectPhase envFailW false).2.2 false = true := by
  have h := open_connect_phase_bounded_retry envFailW false (fun _ => rfl)
  exact ⟨rfl, h.1, h.2.1, h.2.2.2.1, h.2.2.2.2.1⟩

end EspMl307
